import Mathlib

/-!
Shallow embedding of the per-entity animation playback component
(`src/gameobjects/components/Animation.js`) of the Phaser game-object
framework, together with the narrow slice of its external collaborators
(the shared Animation Definition and the owning game object) that the
component reads and writes.

JavaScript numbers are embedded as rationals (`ℚ`); `null`/`undefined`
references are embedded as `Option`; a thrown `TypeError` (a null/undefined
dereference) is recorded by setting the `faulted` flag of the state.
Event emission (`emitEvents`) is instrumented as per-event counters on the
state, so "fires a start notification" is observable as `startEvents`
increasing.  The mutually recursive call graph `stop → play →
startAnimation → load → stop` (animation chaining) is made structurally
terminating with an explicit fuel argument; every theorem below supplies
enough fuel that the fuel bound is never hit on the executed path.
-/

namespace PhaserAnim

/-- One animation frame descriptor of a Definition (external
`Phaser.Animations.AnimationFrame`): its index in the frame sequence, its
progress fraction through the sequence, its per-frame extra duration, and
its optional alpha override. -/
structure AnimFrame where
  index : Nat
  progress : ℚ
  duration : ℚ
  setAlpha : Bool
  alpha : ℚ
deriving DecidableEq

/-- A shared Animation Definition (external `Phaser.Animations.Animation`):
key, ordered frame sequence and default timing/repeat parameters, plus the
Definition-global `paused` flag read by `update`.  The source field
`repeat` is called `repeatCfg` here because `repeat` is a Lean keyword. -/
structure Anim where
  key : String
  frames : List AnimFrame
  frameRate : ℚ
  duration : ℚ
  delay : ℚ
  repeatCfg : Int
  repeatDelay : ℚ
  yoyo : Bool
  showOnStart : Bool
  hideOnComplete : Bool
  skipMissedFrames : Bool
  paused : Bool
deriving DecidableEq

/-- Source `anim.getTotalFrames()`: number of frames in the Definition. -/
def Anim.getTotalFrames (a : Anim) : Nat := a.frames.length

/-- The slice of the owning game object written by the component:
visibility (`setVisible`), alpha, and the displayed frame. -/
structure GameObject where
  visible : Bool
  alpha : ℚ
  frame : Option AnimFrame
deriving DecidableEq

/-- The `any`-typed `_pendingStopValue` side value of the hand-rolled
pending-stop tagged union: a number (ms remaining or repeats remaining),
a frame reference, or JavaScript `undefined` (its initial value). -/
inductive PendingStopValue where
  | undef : PendingStopValue
  | num : ℚ → PendingStopValue
  | frame : AnimFrame → PendingStopValue
deriving DecidableEq

/-- A `play`/`load` request: a key plus the optional per-instance overrides
read via `GetFastValue(key, field, default)`.  A plain string key is the
config with every override `none` (`GetFastValue` returns the default for
non-object sources).  `repeat` is called `repeatCfg` as in `Anim`. -/
structure PlayConfig where
  key : String
  frameRate : Option ℚ := none
  duration : Option ℚ := none
  delay : Option ℚ := none
  repeatCfg : Option Int := none
  repeatDelay : Option ℚ := none
  yoyo : Option Bool := none
  showOnStart : Option Bool := none
  hideOnComplete : Option Bool := none
  skipMissedFrames : Option Bool := none
  timeScale : Option ℚ := none
  startFrame : Option Int := none
deriving DecidableEq

/-- The full mutable state of one playback component (the fields set by the
constructor of `Phaser.GameObjects.Components.Animation`), together with
the owning game object's written surface and the instrumentation fields:
per-event-kind emission counters, a `console.warn` counter and the
`faulted` flag recording a thrown `TypeError`.  Source names `_paused`,
`_wasPlaying`, `_pendingStop`, `_pendingStopValue` and `repeat` are
`paused`, `wasPlaying`, `pendingStop`, `pendingStopValue`, `repeatCfg`. -/
structure AnimState where
  isPlaying : Bool
  hasStarted : Bool
  currentAnim : Option Anim
  currentFrame : Option AnimFrame
  nextAnim : Option PlayConfig
  nextAnimsQueue : List PlayConfig
  timeScale : ℚ
  frameRate : ℚ
  duration : ℚ
  msPerFrame : ℚ
  skipMissedFrames : Bool
  delay : ℚ
  repeatCfg : Int
  repeatDelay : ℚ
  yoyo : Bool
  showOnStart : Bool
  hideOnComplete : Bool
  forward : Bool
  inReverse : Bool
  accumulator : ℚ
  nextTick : ℚ
  delayCounter : ℚ
  repeatCounter : ℚ
  pendingRepeat : Bool
  paused : Bool
  wasPlaying : Bool
  pendingStop : Nat
  pendingStopValue : PendingStopValue
  parent : GameObject
  startEvents : Nat
  stopEvents : Nat
  completeEvents : Nat
  repeatEvents : Nat
  updateEvents : Nat
  restartEvents : Nat
  warnings : Nat
  faulted : Bool
deriving DecidableEq

/-- The animation registry (external Animation Manager): key/Definition
pairs. -/
abbrev Registry := List (String × Anim)

/-- Source `manager.get(animKey)`: resolve a key in the registry. -/
def managerGet (m : Registry) (k : String) : Option Anim :=
  (m.find? (fun p => p.1 == k)).map (fun p => p.2)

/-- JavaScript `Number.MAX_VALUE`, the "effectively infinite" sentinel the
component stores in `repeatCounter` when the configured repeat is `-1`. -/
def numberMaxValue : ℚ := 2 ^ 1024 - 2 ^ 971

/-- JavaScript array indexing `l[i]`: `undefined` (`none`) when the index
is negative or past the end. -/
def jsIndex {α : Type} (l : List α) (i : Int) : Option α :=
  if i < 0 then none else l[i.toNat]?

/-- Source `getName` (lines 489-492): key of the loaded Definition, or the
empty string when none is loaded. -/
def getName (s : AnimState) : String :=
  match s.currentAnim with
  | some a => a.key
  | none => ""

/-- Source `getTotalFrames` (lines 1302-1305): frame count of the loaded
Definition, or zero when none is loaded. -/
def getTotalFrames (s : AnimState) : Nat :=
  match s.currentAnim with
  | some a => a.getTotalFrames
  | none => 0

/-- Source `getProgress` (lines 970-987): the current frame's progress
fraction, negated when `inReverse`, and `0` when no frame is loaded. -/
def getProgress (s : AnimState) : ℚ :=
  match s.currentFrame with
  | none => 0
  | some f => if s.inReverse then -f.progress else f.progress

/-- Source `setCurrentFrame` (lines 1372-1401), restricted to the modelled
game-object surface: record the frame on the component and push it onto
the parent game object (texture/frame/size/origin writes collapse to the
`frame` field of the modelled surface). -/
def setCurrentFrame (fr : AnimFrame) (s : AnimState) : AnimState :=
  { s with currentFrame := some fr, parent := { s.parent with frame := some fr } }

/-- Per-frame closest-match search over a frame list: the first frame whose
`progress` is nearest to the target value.  Helper for
`Anim.getFrameByProgress`. -/
def findClosestByProgress (v : ℚ) : List AnimFrame → Option AnimFrame
  | [] => none
  | f :: fs =>
    some (fs.foldl (fun best g => if |g.progress - v| < |best.progress - v| then g else best) f)

/-- Modelled from the spec: the Definition's `getFrameByProgress` (external
`animations/Animation.js`, not part of this excerpt); the spec lists
"frame-by-progress(0..1)" among the Definition's operations, so the value
is clamped into `[0, 1]` and the frame with the nearest progress fraction
is returned (`undefined` for an empty frame sequence). -/
def Anim.getFrameByProgress (a : Anim) (v : ℚ) : Option AnimFrame :=
  findClosestByProgress (max 0 (min 1 v)) a.frames

/-- Source `setProgress` (lines 1004-1014): mirror the value when playing
backwards, then set the frame the Definition resolves for that fraction.
There is no guard: with no Definition loaded the call dereferences `null`
(`this.currentAnim.getFrameByProgress`), recorded as `faulted`; likewise
`setCurrentFrame(undefined)` faults when the frame sequence is empty. -/
def setProgress (v : ℚ) (s : AnimState) : AnimState :=
  let v := if s.forward then v else 1 - v
  match s.currentAnim with
  | none => { s with faulted := true }
  | some a =>
    match a.getFrameByProgress v with
    | none => { s with faulted := true }
    | some fr => setCurrentFrame fr s

/-- Source `setRepeat` (lines 1034-1039). -/
def setRepeat (v : Int) (s : AnimState) : AnimState :=
  { s with repeatCounter := if v = -1 then numberMaxValue else (v : ℚ) }

/-- Source `stopAfterDelay` (lines 1219-1225): arm pending-stop mode 1. -/
def stopAfterDelay (delay : ℚ) (s : AnimState) : AnimState :=
  { s with pendingStop := 1, pendingStopValue := .num delay }

/-- Source `stopAfterRepeat` (lines 1249-1262): clamp the requested count
to the remaining `repeatCounter` (unless that counter is `-1`), then arm
pending-stop mode 2. -/
def stopAfterRepeat (repeatCount : ℚ) (s : AnimState) : AnimState :=
  let rc := if s.repeatCounter ≠ -1 ∧ repeatCount > s.repeatCounter
            then s.repeatCounter else repeatCount
  { s with pendingStop := 2, pendingStopValue := .num rc }

/-- Source `stopOnFrame` (lines 1285-1291): arm pending-stop mode 3. -/
def stopOnFrame (fr : AnimFrame) (s : AnimState) : AnimState :=
  { s with pendingStop := 3, pendingStopValue := .frame fr }

/-- Source `reverse` (lines 947-957). -/
def reverseDirection (s : AnimState) : AnimState :=
  if s.isPlaying then { s with inReverse := !s.inReverse, forward := !s.forward } else s

/-- Source `chain` (lines 445-477): no argument resets the queue; otherwise
each key fills the single `nextAnim` slot first, overflow is appended to
the FIFO queue. -/
def chain (keys : Option (List PlayConfig)) (s : AnimState) : AnimState :=
  match keys with
  | none => { s with nextAnimsQueue := [], nextAnim := none }
  | some ks =>
    ks.foldl
      (fun st k =>
        match st.nextAnim with
        | none => { st with nextAnim := some k }
        | some _ => { st with nextAnimsQueue := st.nextAnimsQueue ++ [k] })
      s

/-- Source `handleStop` (lines 886-893). -/
def handleStop (s : AnimState) : AnimState :=
  { s with pendingStop := 0, isPlaying := false, stopEvents := s.stopEvents + 1 }

/-- Source `handleComplete` (lines 902-914). -/
def handleComplete (s : AnimState) : AnimState :=
  let s := { s with pendingStop := 0, isPlaying := false }
  let s := if s.hideOnComplete then { s with parent := { s.parent with visible := false } } else s
  { s with completeEvents := s.completeEvents + 1 }

/-- Source `handleRepeat` (lines 872-877). -/
def handleRepeat (s : AnimState) : AnimState :=
  { s with pendingRepeat := false, repeatEvents := s.repeatEvents + 1 }

/-- Modelled from the spec: the component's `getLastFrame`, called by
`load` (line 555) but not included in this excerpt; the spec says
"if starting index is 0 while not playing forward, select the Definition's
last frame instead (reverse playback starts at the end)". -/
def getLastFrame (s : AnimState) : Option AnimFrame :=
  match s.currentAnim with
  | some a => a.frames.getLast?
  | none => none

/-- Modelled from the spec: the Definition's `getFirstTick` (external, not
part of this excerpt); the spec says the start sequence asks "the
Definition for the 'first tick' timing (seeds accumulator/next-tick
threshold)". -/
def getFirstTick (s : AnimState) : AnimState :=
  { s with
    accumulator := 0,
    nextTick := s.msPerFrame + (match s.currentFrame with | some f => f.duration | none => 0) }

/-- Modelled from the spec: the Definition's `calculateDuration` (external,
not part of this excerpt); the spec says `load` asks "the Definition to
compute duration/ms-per-frame from the (possibly overridden) frame rate
and total frame count".  The duration-driven branch is not modelled; no
claim depends on the computed values. -/
def calculateDuration (totalFrames : Nat) (_dur frameRate : ℚ) (s : AnimState) : AnimState :=
  { s with
    frameRate := frameRate,
    msPerFrame := 1000 / frameRate,
    duration := (totalFrames : ℚ) * (1000 / frameRate) }

/-- The `this._pendingStopValue -= delta` step of `update`: only a numeric
payload is decremented (on a frame payload JavaScript would produce `NaN`,
whose comparisons are all false, so the payload is left in place). -/
def decPendingValue : PendingStopValue → ℚ → PendingStopValue
  | .num q, d => .num (q - d)
  | v, _ => v

/-- The `this._pendingStopValue <= 0` test of `update`: false on the
non-numeric payloads (JavaScript `NaN <= 0` and `undefined <= 0` are
false). -/
def pendingValueLE0 : PendingStopValue → Bool
  | .num q => decide (q ≤ 0)
  | _ => false

mutual

/-- Source `stop` (lines 1176-1197): clear pending-stop, stop playing, run
`handleStop` when a Definition is loaded, then promote and play a chained
animation (`nextAnim` takes the queue's shifted head). -/
def stop (m : Registry) : Nat → AnimState → AnimState
  | 0, s => s
  | fuel + 1, s =>
    let s := { s with pendingStop := 0, isPlaying := false }
    let s := if s.currentAnim.isSome then handleStop s else s
    match s.nextAnim with
    | none => s
    | some key =>
      let s := { s with nextAnim := s.nextAnimsQueue.head?,
                        nextAnimsQueue := s.nextAnimsQueue.tail }
      play m fuel key false s

/-- Source `complete` (lines 1138-1159): like `stop` but via
`handleComplete`; the chained promotion is identical. -/
def complete (m : Registry) : Nat → AnimState → AnimState
  | 0, s => s
  | fuel + 1, s =>
    let s := { s with pendingStop := 0, isPlaying := false }
    let s := if s.currentAnim.isSome then handleComplete s else s
    match s.nextAnim with
    | none => s
    | some key =>
      let s := { s with nextAnim := s.nextAnimsQueue.head?,
                        nextAnimsQueue := s.nextAnimsQueue.tail }
      play m fuel key false s

/-- Source `play` (lines 738-757): optional ignore-if-already-playing-this-
key early return (dereferencing `currentAnim.key`, a fault when nothing is
loaded), then set forward direction flags and run the shared start
sequence. -/
def play (m : Registry) : Nat → PlayConfig → Bool → AnimState → AnimState
  | 0, _, _, s => s
  | fuel + 1, key, ignoreIfPlaying, s =>
    if ignoreIfPlaying ∧ s.isPlaying then
      match s.currentAnim with
      | none => { s with faulted := true }
      | some a =>
        if a.key = key.key then s
        else
          startAnimation m fuel key
            { s with forward := true, inReverse := false, paused := false, wasPlaying := true }
    else
      startAnimation m fuel key
        { s with forward := true, inReverse := false, paused := false, wasPlaying := true }

/-- Source `playReverse` (lines 773-792): as `play` with the reverse
direction flags. -/
def playReverse (m : Registry) : Nat → PlayConfig → Bool → AnimState → AnimState
  | 0, _, _, s => s
  | fuel + 1, key, ignoreIfPlaying, s =>
    if ignoreIfPlaying ∧ s.isPlaying then
      match s.currentAnim with
      | none => { s with faulted := true }
      | some a =>
        if a.key = key.key then s
        else
          startAnimation m fuel key
            { s with forward := false, inReverse := true, paused := false, wasPlaying := true }
    else
      startAnimation m fuel key
        { s with forward := false, inReverse := true, paused := false, wasPlaying := true }

/-- Source `startAnimation` (lines 808-842): load, early-return when
nothing got loaded, seed the repeat counter (with the `Number.MAX_VALUE`
sentinel for `-1`) and the first tick, initialise the playing flags, clear
pending-stop, add the animation's own delay into `delayCounter`, and run
`handleStart` immediately when the resulting delay is exactly zero. -/
def startAnimation (m : Registry) : Nat → PlayConfig → AnimState → AnimState
  | 0, _, s => s
  | fuel + 1, key, s =>
    let s := load m fuel key s
    match s.currentAnim with
    | none => s
    | some _ =>
      let s := { s with
        repeatCounter := if s.repeatCfg = -1 then numberMaxValue else (s.repeatCfg : ℚ) }
      let s := getFirstTick s
      let s := { s with isPlaying := true, pendingRepeat := false, hasStarted := false,
                        pendingStop := 0, pendingStopValue := .num 0, paused := false }
      let s := { s with delayCounter := s.delayCounter + s.delay }
      if s.delayCounter = 0 then handleStart m fuel s else s

/-- Source `load` (lines 505-562): stop first when playing, resolve the key
(a miss is a `console.warn`, counted in `warnings`, and leaves the loaded
state untouched), copy timing fields from the Definition overridden by the
request, and select the start frame.  Note the source guard is
`startFrame > anim.getTotalFrames()`, a strict comparison, and
`anim.frames[startFrame]` is `undefined` (`none`) out of range. -/
def load (m : Registry) : Nat → PlayConfig → AnimState → AnimState
  | 0, _, s => s
  | fuel + 1, key, s =>
    let s := if s.isPlaying then stop m fuel s else s
    match managerGet m key.key with
    | none => { s with warnings := s.warnings + 1 }
    | some anim =>
      let s := { s with currentAnim := some anim }
      let totalFrames := anim.getTotalFrames
      let frameRate := key.frameRate.getD anim.frameRate
      let dur := key.duration.getD anim.duration
      let s := calculateDuration totalFrames dur frameRate s
      let s := { s with
        delay := key.delay.getD anim.delay,
        repeatCfg := key.repeatCfg.getD anim.repeatCfg,
        repeatDelay := key.repeatDelay.getD anim.repeatDelay,
        yoyo := key.yoyo.getD anim.yoyo,
        showOnStart := key.showOnStart.getD anim.showOnStart,
        hideOnComplete := key.hideOnComplete.getD anim.hideOnComplete,
        skipMissedFrames := key.skipMissedFrames.getD anim.skipMissedFrames,
        timeScale := key.timeScale.getD s.timeScale }
      let startFrame : Int := key.startFrame.getD 0
      let startFrame := if startFrame > (totalFrames : Int) then 0 else startFrame
      let frame := jsIndex anim.frames startFrame
      let frame := if startFrame = 0 ∧ s.forward = false then getLastFrame s else frame
      { s with currentFrame := frame }

/-- Source `handleStart` (lines 851-863): optional show-on-start
visibility, push the current frame, mark started, emit the start
notifications. -/
def handleStart (m : Registry) : Nat → AnimState → AnimState
  | 0, s => s
  | fuel + 1, s =>
    let s := if s.showOnStart then { s with parent := { s.parent with visible := true } } else s
    let s := updateFrame m fuel s.currentFrame s
    let s := { s with hasStarted := true }
    { s with startEvents := s.startEvents + 1 }

/-- Source `updateFrame` (lines 1418-1436): set the current frame (a fault
on `undefined`, which `setCurrentFrame` would dereference), and while
playing apply the frame's alpha override, emit the update notifications,
and fire the armed on-specific-frame stop when this frame matches. -/
def updateFrame (m : Registry) : Nat → Option AnimFrame → AnimState → AnimState
  | 0, _, s => s
  | fuel + 1, fr?, s =>
    match fr? with
    | none => { s with faulted := true }
    | some fr =>
      let s := setCurrentFrame fr s
      if s.isPlaying then
        let s := if fr.setAlpha then { s with parent := { s.parent with alpha := fr.alpha } } else s
        let s := { s with updateEvents := s.updateEvents + 1 }
        if s.pendingStop = 3 ∧ s.pendingStopValue = .frame fr then stop m fuel s else s
      else s

/-- Source `restart` (lines 1083-1119): early return when nothing is
loaded; otherwise optionally reseed the repeat counter, reseed the first
tick, emit the restart notifications, reinitialise the playing flags
(skipping the delay unless `includeDelay`), clear pending-stop, and push
frame 0. -/
def restart (m : Registry) : Nat → Bool → Bool → AnimState → AnimState
  | 0, _, _, s => s
  | fuel + 1, includeDelay, resetRepeats, s =>
    match s.currentAnim with
    | none => s
    | some anim =>
      let s := if resetRepeats then
          { s with repeatCounter := if s.repeatCfg = -1 then numberMaxValue else (s.repeatCfg : ℚ) }
        else s
      let s := getFirstTick s
      let s := { s with restartEvents := s.restartEvents + 1 }
      let s := { s with isPlaying := true, pendingRepeat := false, hasStarted := !includeDelay,
                        pendingStop := 0, pendingStopValue := .num 0, paused := false }
      updateFrame m fuel anim.frames[0]? s

/-- Source `pause` (lines 575-590): idempotent pause, optionally forcing a
frame. -/
def pause (m : Registry) : Nat → Option AnimFrame → AnimState → AnimState
  | 0, _, s => s
  | fuel + 1, atFrame, s =>
    let s := if !s.paused then
        { s with paused := true, wasPlaying := s.isPlaying, isPlaying := false }
      else s
    match atFrame with
    | none => s
    | some fr => updateFrame m fuel (some fr) s

/-- Source `resume` (lines 603-617): idempotent inverse of `pause`. -/
def resume (m : Registry) : Nat → Option AnimFrame → AnimState → AnimState
  | 0, _, s => s
  | fuel + 1, fromFrame, s =>
    let s := if s.paused then { s with paused := false, isPlaying := s.wasPlaying } else s
    match fromFrame with
    | none => s
    | some fr => updateFrame m fuel (some fr) s

/-- Source `remove` (lines 1050-1060): the registry's removal notification;
an `undefined` animation argument defaults to the loaded one; while
playing the matching Definition, stop and reset to its frame 0.  The key
dereferences (`animation.key`, `this.currentAnim.key`, `frames[0]` through
`setCurrentFrame`) fault on `null`/`undefined`. -/
def remove (m : Registry) : Nat → String → Option Anim → AnimState → AnimState
  | 0, _, _, s => s
  | fuel + 1, _key, animation?, s =>
    let animation? := match animation? with | none => s.currentAnim | some a => some a
    if s.isPlaying then
      match animation? with
      | none => { s with faulted := true }
      | some a =>
        match s.currentAnim with
        | none => { s with faulted := true }
        | some c =>
          if a.key = c.key then
            let s := stop m fuel s
            match s.currentAnim with
            | none => { s with faulted := true }
            | some c2 =>
              match c2.frames[0]? with
              | none => { s with faulted := true }
              | some f0 => setCurrentFrame f0 s
          else s
    else s

/-- Source `playAfterDelay` (lines 642-668): when idle, seed `delayCounter`
and play; when playing, demote any queued `nextAnim`, queue the request
and arm pending-stop mode 1 with the given delay. -/
def playAfterDelay (m : Registry) : Nat → PlayConfig → ℚ → AnimState → AnimState
  | 0, _, _, s => s
  | fuel + 1, key, delay, s =>
    if !s.isPlaying then
      play m fuel key true { s with delayCounter := delay }
    else
      let s := match s.nextAnim with
        | some n => { s with nextAnimsQueue := n :: s.nextAnimsQueue }
        | none => s
      { s with nextAnim := some key, pendingStop := 1, pendingStopValue := .num delay }

/-- Source `playAfterRepeat` (lines 689-720): when idle, play immediately;
when playing, demote any queued `nextAnim`, clamp the requested repeat
count to the remaining `repeatCounter` (unless that counter is `-1`), and
arm pending-stop mode 2. -/
def playAfterRepeat (m : Registry) : Nat → PlayConfig → ℚ → AnimState → AnimState
  | 0, _, _, s => s
  | fuel + 1, key, repeatCount, s =>
    if !s.isPlaying then
      play m fuel key false s
    else
      let s := match s.nextAnim with
        | some n => { s with nextAnimsQueue := n :: s.nextAnimsQueue }
        | none => s
      let repeatCount := if s.repeatCounter ≠ (-1 : ℚ) ∧ repeatCount > s.repeatCounter
                         then s.repeatCounter else repeatCount
      { s with nextAnim := some key, pendingStop := 2, pendingStopValue := .num repeatCount }

/-- Source `update` (lines 1318-1359), the per-tick transition: no-op when
not playing, nothing loaded, or the Definition is paused; accumulate
`delta * timeScale`; in pending-stop mode 1 decrement the value by the raw
delta and stop-and-return when it reaches `≤ 0`; before the start, fire
`handleStart` once the accumulator covers `delayCounter` (keeping the
overflow); after the start, delegate to the Definition's frame-advance
algorithm when the accumulator covers `nextTick`. -/
def update (m : Registry) : Nat → ℚ → ℚ → AnimState → AnimState
  | 0, _, _, s => s
  | fuel + 1, _time, delta, s =>
    match s.currentAnim with
    | none => s
    | some anim =>
      if !s.isPlaying ∨ anim.paused then s
      else
        let s := { s with accumulator := s.accumulator + delta * s.timeScale }
        let s := if s.pendingStop = 1 then
            { s with pendingStopValue := decPendingValue s.pendingStopValue delta }
          else s
        if s.pendingStop = 1 ∧ pendingValueLE0 s.pendingStopValue then stop m fuel s
        else
          if !s.hasStarted then
            if s.delayCounter ≤ s.accumulator then
              handleStart m fuel { s with accumulator := s.accumulator - s.delayCounter }
            else s
          else
            if s.nextTick ≤ s.accumulator then
              if s.forward then animNextFrame m fuel s else animPreviousFrame m fuel s
            else s

/-- Modelled from the spec: the step of the Definition's frame-advance
algorithm that moves the cursor to a given frame and recomputes the
next-tick threshold "from per-frame duration overrides" (external
`animations/Animation.js`, not part of this excerpt). -/
def stepToFrame (m : Registry) : Nat → AnimFrame → AnimState → AnimState
  | 0, _, s => s
  | fuel + 1, fr, s =>
    let s := { s with accumulator := s.accumulator - s.nextTick }
    let s := { s with nextTick := s.msPerFrame + fr.duration }
    updateFrame m fuel (some fr) s

/-- Modelled from the spec: the repeat-boundary handling of the
Definition's frame-advance algorithm (external, not part of this excerpt):
an armed after-repeat-count pending-stop counts this boundary (stopping at
zero), otherwise the repeat-counter is decremented, "handle repeat" runs,
and the cursor returns to the cycle's first frame with the repeat delay
added to the next tick. -/
def repeatAnimation (m : Registry) : Nat → AnimState → AnimState
  | 0, s => s
  | fuel + 1, s =>
    if s.pendingStop = 2 then
      match s.pendingStopValue with
      | .num q =>
        if q = 0 then stop m fuel s
        else repeatBody m fuel { s with pendingStopValue := .num (q - 1) }
      | _ => repeatBody m fuel s
    else repeatBody m fuel s

/-- Modelled from the spec: the body of a repeat cycle (external, not part
of this excerpt): decrement the repeat counter, reset the cursor to the
cycle's entry frame (first frame forward, last frame in reverse), add the
repeat delay into the next tick, and run "handle repeat". -/
def repeatBody (m : Registry) : Nat → AnimState → AnimState
  | 0, s => s
  | fuel + 1, s =>
    match s.currentAnim with
    | none => s
    | some a =>
      match (if s.forward then a.frames[0]? else a.frames.getLast?) with
      | none => s
      | some f0 =>
        let s := { s with repeatCounter := s.repeatCounter - 1 }
        let s := { s with accumulator := s.accumulator - s.nextTick,
                          nextTick := s.msPerFrame + f0.duration + s.repeatDelay }
        let s := handleRepeat s
        updateFrame m fuel (some f0) s

/-- Modelled from the spec: the Definition's forward frame-advance
algorithm (`anim.nextFrame(component)`, external, not part of this
excerpt): advance to the next frame descriptor, honouring yoyo reversal at
the sequence boundary, repeating while the repeat counter is positive, and
completing when repeats are exhausted. -/
def animNextFrame (m : Registry) : Nat → AnimState → AnimState
  | 0, s => s
  | fuel + 1, s =>
    match s.currentAnim, s.currentFrame with
    | some a, some f =>
      (match a.frames[f.index + 1]? with
       | some nf => stepToFrame m fuel nf s
       | none =>
         if s.yoyo ∧ s.forward then
           let s := { s with forward := false }
           match a.frames[f.index - 1]? with
           | some pf => stepToFrame m fuel pf s
           | none => stepToFrame m fuel f s
         else if 0 < s.repeatCounter then repeatAnimation m fuel s
         else complete m fuel s)
    | _, _ => s

/-- Modelled from the spec: the Definition's reverse frame-advance
algorithm (`anim.previousFrame(component)`, external, not part of this
excerpt), symmetric to the forward one. -/
def animPreviousFrame (m : Registry) : Nat → AnimState → AnimState
  | 0, s => s
  | fuel + 1, s =>
    match s.currentAnim, s.currentFrame with
    | some a, some f =>
      if f.index ≠ 0 then
        match a.frames[f.index - 1]? with
        | some pf => stepToFrame m fuel pf s
        | none => s
      else
        if s.yoyo ∧ !s.forward then
          let s := { s with forward := true }
          match a.frames[f.index + 1]? with
          | some nf => stepToFrame m fuel nf s
          | none => stepToFrame m fuel f s
        else if 0 < s.repeatCounter then repeatAnimation m fuel s
        else complete m fuel s
    | _, _ => s

/-- Source `nextFrame` (lines 1450-1458): force one forward step through
the Definition's advance algorithm, guarded on a loaded Definition. -/
def compNextFrame (m : Registry) : Nat → AnimState → AnimState
  | 0, s => s
  | fuel + 1, s =>
    match s.currentAnim with
    | none => s
    | some _ => animNextFrame m fuel s

/-- Source `previousFrame` (lines 1472-1480): reverse counterpart of
`nextFrame`. -/
def compPreviousFrame (m : Registry) : Nat → AnimState → AnimState
  | 0, s => s
  | fuel + 1, s =>
    match s.currentAnim with
    | none => s
    | some _ => animPreviousFrame m fuel s

end

/-! ## Concrete fixtures used by the witnesses and evaluation theorems -/

/-- A two-frame test animation frame (index 0). -/
def frameA : AnimFrame := ⟨0, 1/2, 0, false, 1⟩

/-- A two-frame test animation frame (index 1). -/
def frameB : AnimFrame := ⟨1, 1, 0, false, 1⟩

/-- A two-frame test Definition with no delay, no repeats and no yoyo. -/
def walkAnim : Anim :=
  { key := "walk", frames := [frameA, frameB], frameRate := 10, duration := 200,
    delay := 0, repeatCfg := 0, repeatDelay := 0, yoyo := false, showOnStart := false,
    hideOnComplete := false, skipMissedFrames := true, paused := false }

/-- A registry holding only `walkAnim`. -/
def testRegistry : Registry := [("walk", walkAnim)]

/-- The owning game object's initial surface. -/
def initGameObject : GameObject := ⟨true, 1, none⟩

/-- The component state as the source constructor leaves it (lines 35-422):
nothing loaded, not playing, time scale 1, pending-stop mode 0 with the
`undefined` payload, all counters at zero. -/
def initState : AnimState where
  isPlaying := false
  hasStarted := false
  currentAnim := none
  currentFrame := none
  nextAnim := none
  nextAnimsQueue := []
  timeScale := 1
  frameRate := 0
  duration := 0
  msPerFrame := 0
  skipMissedFrames := true
  delay := 0
  repeatCfg := 0
  repeatDelay := 0
  yoyo := false
  showOnStart := false
  hideOnComplete := false
  forward := true
  inReverse := false
  accumulator := 0
  nextTick := 0
  delayCounter := 0
  repeatCounter := 0
  pendingRepeat := false
  paused := false
  wasPlaying := false
  pendingStop := 0
  pendingStopValue := .undef
  parent := initGameObject
  startEvents := 0
  stopEvents := 0
  completeEvents := 0
  repeatEvents := 0
  updateEvents := 0
  restartEvents := 0
  warnings := 0
  faulted := false

/-- A state with a playing animation that still has five repeats left. -/
def repeatFiveState : AnimState :=
  { initState with currentAnim := some walkAnim, currentFrame := some frameA,
                   isPlaying := true, repeatCounter := 5 }

/-- Frame `i` of a ten-frame Definition whose progress grid is
`(i+1)/10`. -/
def tenthFrame (i : Nat) : AnimFrame := ⟨i, ((i : ℚ) + 1) / 10, 0, false, 1⟩

/-- A ten-frame test Definition. -/
def tenAnim : Anim :=
  { key := "ten",
    frames := [tenthFrame 0, tenthFrame 1, tenthFrame 2, tenthFrame 3, tenthFrame 4,
               tenthFrame 5, tenthFrame 6, tenthFrame 7, tenthFrame 8, tenthFrame 9],
    frameRate := 10, duration := 1000, delay := 0, repeatCfg := 0, repeatDelay := 0,
    yoyo := false, showOnStart := false, hideOnComplete := false,
    skipMissedFrames := true, paused := false }

/-- The ten-frame Definition loaded and playing in reverse (the state
`playReverse` leaves behind: `forward = false`, `inReverse = true`). -/
def reverseTenState : AnimState :=
  { initState with currentAnim := some tenAnim, currentFrame := some (tenthFrame 9),
                   isPlaying := true, forward := false, inReverse := true }

/-- Frame `i` of the three-frame Definition used for the start-index
boundary. -/
def gFrame (i : Nat) : AnimFrame := ⟨i, (i : ℚ), 0, false, 1⟩

/-- A three-frame test Definition. -/
def threeAnim : Anim :=
  { key := "three", frames := [gFrame 0, gFrame 1, gFrame 2],
    frameRate := 10, duration := 300, delay := 0, repeatCfg := 0, repeatDelay := 0,
    yoyo := false, showOnStart := false, hideOnComplete := false,
    skipMissedFrames := true, paused := false }

/-- A registry holding only `threeAnim`. -/
def threeRegistry : Registry := [("three", threeAnim)]

/-- A loaded, delay-passed, playing state with an after-ms pending stop of
40 ms armed. -/
def pendingStopState : AnimState :=
  { initState with currentAnim := some walkAnim, currentFrame := some frameA,
                   isPlaying := true, hasStarted := true,
                   pendingStop := 1, pendingStopValue := .num 40 }

/-- A loaded, playing state displaying the second frame of `walkAnim`. -/
def playingState : AnimState :=
  { initState with currentAnim := some walkAnim, currentFrame := some frameB,
                   isPlaying := true, hasStarted := true }

/-- A loaded two-frame animation waiting out a 100 ms delay, exactly as a
fresh start with total delay 100 leaves it: playing, not started,
accumulator 0, pending-stop clear. -/
def delayState : AnimState :=
  { initState with currentAnim := some walkAnim, currentFrame := some frameA,
                   isPlaying := true, delayCounter := 100 }

/-! ## Theorems -/

/-- Helper: with no chained animation queued, `stop` only clears the
pending stop, stops playing and (when a Definition is loaded) emits one
stop notification; every other component field is untouched. -/
theorem stop_no_chain_fields (m : Registry) (k : Nat) (s : AnimState)
    (hchain : s.nextAnim = none) :
    (stop m (k + 1) s).isPlaying = false ∧
    (stop m (k + 1) s).pendingStop = 0 ∧
    (stop m (k + 1) s).currentAnim = s.currentAnim ∧
    (stop m (k + 1) s).currentFrame = s.currentFrame ∧
    (stop m (k + 1) s).hasStarted = s.hasStarted ∧
    (stop m (k + 1) s).startEvents = s.startEvents ∧
    (stop m (k + 1) s).updateEvents = s.updateEvents ∧
    (stop m (k + 1) s).warnings = s.warnings ∧
    (stop m (k + 1) s).faulted = s.faulted ∧
    (stop m (k + 1) s).parent = s.parent ∧
    (stop m (k + 1) s).accumulator = s.accumulator ∧
    (stop m (k + 1) s).pendingStopValue = s.pendingStopValue ∧
    (stop m (k + 1) s).stopEvents
      = s.stopEvents + (if s.currentAnim.isSome then 1 else 0) ∧
    (stop m (k + 1) s).nextAnim = none := by
  cases hca : s.currentAnim <;>
    simp [stop, handleStop, hchain, hca]

/-- Claim C10: when no animation is loaded (`currentAnim` and `currentFrame`
are both `null`), the read accessors are total and return neutral defaults
without faulting: `getName` returns the empty string, `getTotalFrames`
returns `0`, and `getProgress` returns `0`. -/
theorem unloaded_accessor_defaults (s : AnimState)
    (ha : s.currentAnim = none) (hf : s.currentFrame = none) :
    getName s = "" ∧ getTotalFrames s = 0 ∧ getProgress s = 0 := by
  refine ⟨?_, ?_, ?_⟩ <;> simp [getName, getTotalFrames, getProgress, ha, hf]

/-- Witness for `unloaded_accessor_defaults`: the freshly constructed
component state has nothing loaded and all three accessors return their
defaults. -/
theorem unloaded_accessor_defaults_witness :
    initState.currentAnim = none ∧ initState.currentFrame = none ∧
      (getName initState = "" ∧ getTotalFrames initState = 0 ∧ getProgress initState = 0) :=
  ⟨rfl, rfl, unloaded_accessor_defaults initState rfl rfl⟩

/-- Claim C5 (code bug evaluation): calling `setProgress` while no
animation is loaded is not a guarded no-op: the source dereferences the
`null` `currentAnim` (`this.currentAnim.getFrameByProgress(value)`), which
the embedding records as a fault on the previously fault-free state. -/
theorem setProgress_unloaded_faults :
    initState.faulted = false ∧ (setProgress (1/2) initState).faulted = true := by
  refine ⟨rfl, ?_⟩
  simp [setProgress, initState]

/-- Claim C3: `stopAfterRepeat(repeatCount)` and, while playing,
`playAfterRepeat(key, repeatCount)` arm the after-repeat-count pending
stop with the requested count clamped to the remaining `repeatCounter`
(the source guard applies whenever `repeatCounter ≠ -1`): the armed value
is `repeatCounter` whenever `repeatCount` exceeds it, and `repeatCount`
otherwise — that is, `min repeatCount repeatCounter`. -/
theorem stopAfterRepeat_clamps (m : Registry) (k : Nat) (key : PlayConfig)
    (s : AnimState) (rc : ℚ) (hfin : s.repeatCounter ≠ -1) :
    ((stopAfterRepeat rc s).pendingStop = 2 ∧
      (stopAfterRepeat rc s).pendingStopValue = .num (min rc s.repeatCounter)) ∧
    (s.isPlaying = true →
      (playAfterRepeat m (k + 1) key rc s).pendingStop = 2 ∧
      (playAfterRepeat m (k + 1) key rc s).pendingStopValue = .num (min rc s.repeatCounter)) := by
  have hmin : (if s.repeatCounter ≠ (-1 : ℚ) ∧ rc > s.repeatCounter
               then s.repeatCounter else rc) = min rc s.repeatCounter := by
    rcases lt_or_ge s.repeatCounter rc with h | h
    · simp [hfin, h, min_eq_right h.le]
    · have hnot : ¬ rc > s.repeatCounter := not_lt.mpr h
      simp [hnot, min_eq_left h]
  constructor
  · constructor
    · simp [stopAfterRepeat]
    · simp [stopAfterRepeat, hmin]
  · intro hp
    cases hna : s.nextAnim <;>
      simp [playAfterRepeat, hp, hna, hmin]

/-- Helper: one `update` tick on a delayed (not-yet-started) playing
animation whose accumulator stays strictly below the delay only accrues
`delta * timeScale` into the accumulator and changes nothing else. -/
theorem update_delay_step (m : Registry) (k : Nat) (t d : ℚ) (s : AnimState) (a : Anim)
    (ha : s.currentAnim = some a) (hap : a.paused = false) (hp : s.isPlaying = true)
    (hs : s.hasStarted = false) (hps : s.pendingStop = 0)
    (hlt : s.accumulator + d * s.timeScale < s.delayCounter) :
    update m (k + 3) t d s = { s with accumulator := s.accumulator + d * s.timeScale } := by
  simp [update, ha, hap, hp, hs, hps, not_le.mpr hlt]

/-- Helper: a whole sequence of `update` ticks whose scaled deltas sum to
strictly less than the delay only accrues that sum into the
accumulator. -/
theorem update_delay_fold (m : Registry) (k : Nat) (t : ℚ) :
    ∀ (ds : List ℚ) (s : AnimState) (a : Anim),
      s.currentAnim = some a → a.paused = false → s.isPlaying = true →
      s.hasStarted = false → s.pendingStop = 0 →
      (∀ x ∈ ds, 0 ≤ x) → 0 ≤ s.timeScale →
      s.accumulator + (ds.map (fun x => x * s.timeScale)).sum < s.delayCounter →
      ds.foldl (fun st dl => update m (k + 3) t dl st) s
        = { s with accumulator := s.accumulator + (ds.map (fun x => x * s.timeScale)).sum } := by
  intro ds
  induction ds with
  | nil => intro s a _ _ _ _ _ _ _ _; simp
  | cons d ds ih =>
    intro s a ha hap hp hs hps hnn hts hlt
    have hd : 0 ≤ d := hnn d (List.mem_cons_self d ds)
    have hrest : 0 ≤ (ds.map (fun x => x * s.timeScale)).sum := by
      apply List.sum_nonneg
      intro x hx
      obtain ⟨y, hy, rfl⟩ := List.mem_map.mp hx
      exact mul_nonneg (hnn y (List.mem_cons_of_mem d hy)) hts
    have hsum : s.accumulator + (d * s.timeScale
        + (ds.map (fun x => x * s.timeScale)).sum) < s.delayCounter := by
      simpa using hlt
    have hstep : s.accumulator + d * s.timeScale < s.delayCounter := by linarith
    rw [List.foldl_cons, update_delay_step m k t d s a ha hap hp hs hps hstep]
    have hrec := ih { s with accumulator := s.accumulator + d * s.timeScale } a
      (by simpa using ha) hap (by simpa using hp) (by simpa using hs) (by simpa using hps)
      (fun x hx => hnn x (List.mem_cons_of_mem d hx)) (by simpa using hts)
      (by
        have harith : s.accumulator + d * s.timeScale
            + (ds.map (fun x => x * s.timeScale)).sum < s.delayCounter := by linarith
        simpa using harith)
    rw [hrec]
    have harith2 : s.accumulator + d * s.timeScale
        + (ds.map (fun x => x * s.timeScale)).sum
        = s.accumulator + ((d :: ds).map (fun x => x * s.timeScale)).sum := by
      simp [add_assoc]
    show ({ s with accumulator := s.accumulator + d * s.timeScale
              + (ds.map (fun x => x * s.timeScale)).sum } : AnimState)
        = { s with accumulator := s.accumulator
              + ((d :: ds).map (fun x => x * s.timeScale)).sum }
    rw [harith2]

/-- Helper: the `update` tick at which the accumulator reaches or exceeds
the delay runs `handleStart`: the component becomes started, exactly one
start notification fires, the current frame is (re)applied, and the
overflow beyond the delay is retained in the accumulator. -/
theorem update_delay_cross (m : Registry) (k : Nat) (t d : ℚ) (s : AnimState)
    (a : Anim) (f : AnimFrame)
    (ha : s.currentAnim = some a) (hap : a.paused = false) (hp : s.isPlaying = true)
    (hs : s.hasStarted = false) (hps : s.pendingStop = 0) (hf : s.currentFrame = some f)
    (hge : s.delayCounter ≤ s.accumulator + d * s.timeScale) :
    (update m (k + 3) t d s).hasStarted = true ∧
    (update m (k + 3) t d s).startEvents = s.startEvents + 1 ∧
    (update m (k + 3) t d s).accumulator
      = s.accumulator + d * s.timeScale - s.delayCounter ∧
    (update m (k + 3) t d s).isPlaying = true ∧
    (update m (k + 3) t d s).currentFrame = some f := by
  have hupd : update m (k + 3) t d s
      = handleStart m (k + 2)
          { s with accumulator := s.accumulator + d * s.timeScale - s.delayCounter } := by
    simp [update, ha, hap, hp, hs, hps, hge]
  rw [hupd]
  cases hso : s.showOnStart <;> cases hsa : f.setAlpha <;>
    simp [handleStart, updateFrame, setCurrentFrame, hf, hp, hps, hso, hsa]

/-- Claim C1: for an animation started with a positive total delay `D`
(sitting in `delayCounter`, where `startAnimation` accumulated the
caller-supplied and intrinsic delays), every sequence of `update` ticks
whose scaled deltas sum to strictly less than `D` fires no start
notification and leaves the displayed frame (and the parent surface)
unchanged, the accumulator holding exactly the sum so far; the first tick
whose cumulative scaled delta reaches or exceeds `D` runs `handleStart`
exactly once (one start notification, `hasStarted` flips), and the
overflow beyond `D` is retained in the accumulator rather than
discarded. -/
theorem delay_gate_update (m : Registry) (k : Nat) (t d : ℚ) (ds : List ℚ)
    (s : AnimState) (a : Anim) (f : AnimFrame)
    (ha : s.currentAnim = some a) (hap : a.paused = false) (hp : s.isPlaying = true)
    (hs : s.hasStarted = false) (hps : s.pendingStop = 0) (hf : s.currentFrame = some f)
    (hacc : s.accumulator = 0) (_hD : 0 < s.delayCounter) (hts : 0 ≤ s.timeScale)
    (hds : ∀ x ∈ ds, 0 ≤ x)
    (hbelow : (ds.map (fun x => x * s.timeScale)).sum < s.delayCounter)
    (hcross : s.delayCounter ≤ (ds.map (fun x => x * s.timeScale)).sum + d * s.timeScale) :
    ((ds.foldl (fun st dl => update m (k + 3) t dl st) s).hasStarted = false ∧
     (ds.foldl (fun st dl => update m (k + 3) t dl st) s).startEvents = s.startEvents ∧
     (ds.foldl (fun st dl => update m (k + 3) t dl st) s).currentFrame = s.currentFrame ∧
     (ds.foldl (fun st dl => update m (k + 3) t dl st) s).parent = s.parent ∧
     (ds.foldl (fun st dl => update m (k + 3) t dl st) s).accumulator
       = (ds.map (fun x => x * s.timeScale)).sum) ∧
    ((update m (k + 3) t d
        (ds.foldl (fun st dl => update m (k + 3) t dl st) s)).hasStarted = true ∧
     (update m (k + 3) t d
        (ds.foldl (fun st dl => update m (k + 3) t dl st) s)).startEvents
       = s.startEvents + 1 ∧
     (update m (k + 3) t d
        (ds.foldl (fun st dl => update m (k + 3) t dl st) s)).accumulator
       = (ds.map (fun x => x * s.timeScale)).sum + d * s.timeScale - s.delayCounter) := by
  have hfold := update_delay_fold m k t ds s a ha hap hp hs hps hds hts
    (by rw [hacc]; simpa using hbelow)
  rw [hfold]
  constructor
  · refine ⟨by simp [hs], by simp, by simp, by simp, by simp [hacc]⟩
  · have hcross2 := update_delay_cross m k t d
      { s with accumulator := s.accumulator + (ds.map (fun x => x * s.timeScale)).sum } a f
      (by simpa using ha) hap (by simpa using hp) (by simpa using hs) (by simpa using hps)
      (by simpa using hf)
      (by simp [hacc]; linarith)
    obtain ⟨c1, c2, c3, _, _⟩ := hcross2
    refine ⟨c1, by simpa using c2, ?_⟩
    rw [c3]
    simp [hacc]

/-- Witness for `delay_gate_update`: delay 100, ticks of 30 and 40 ms
(sum 70 < 100) fire nothing; the next 50 ms tick crosses 100 and leaves
the 20 ms overflow in the accumulator. -/
theorem delay_gate_update_witness :
    delayState.currentAnim = some walkAnim ∧
    walkAnim.paused = false ∧
    delayState.isPlaying = true ∧
    delayState.hasStarted = false ∧
    delayState.pendingStop = 0 ∧
    delayState.currentFrame = some frameA ∧
    delayState.accumulator = 0 ∧
    0 < delayState.delayCounter ∧
    0 ≤ delayState.timeScale ∧
    (∀ x ∈ ([30, 40] : List ℚ), 0 ≤ x) ∧
    (([30, 40] : List ℚ).map (fun x => x * delayState.timeScale)).sum
      < delayState.delayCounter ∧
    delayState.delayCounter
      ≤ (([30, 40] : List ℚ).map (fun x => x * delayState.timeScale)).sum
          + 50 * delayState.timeScale ∧
    ((((([30, 40] : List ℚ).foldl
          (fun st dl => update testRegistry 3 0 dl st) delayState)).hasStarted = false ∧
      ((([30, 40] : List ℚ).foldl
          (fun st dl => update testRegistry 3 0 dl st) delayState)).startEvents
        = delayState.startEvents ∧
      ((([30, 40] : List ℚ).foldl
          (fun st dl => update testRegistry 3 0 dl st) delayState)).currentFrame
        = delayState.currentFrame ∧
      ((([30, 40] : List ℚ).foldl
          (fun st dl => update testRegistry 3 0 dl st) delayState)).parent
        = delayState.parent ∧
      ((([30, 40] : List ℚ).foldl
          (fun st dl => update testRegistry 3 0 dl st) delayState)).accumulator
        = (([30, 40] : List ℚ).map (fun x => x * delayState.timeScale)).sum) ∧
     ((update testRegistry 3 0 50
         (([30, 40] : List ℚ).foldl
           (fun st dl => update testRegistry 3 0 dl st) delayState)).hasStarted = true ∧
      (update testRegistry 3 0 50
         (([30, 40] : List ℚ).foldl
           (fun st dl => update testRegistry 3 0 dl st) delayState)).startEvents
        = delayState.startEvents + 1 ∧
      (update testRegistry 3 0 50
         (([30, 40] : List ℚ).foldl
           (fun st dl => update testRegistry 3 0 dl st) delayState)).accumulator
        = (([30, 40] : List ℚ).map (fun x => x * delayState.timeScale)).sum
            + 50 * delayState.timeScale - delayState.delayCounter)) :=
  ⟨rfl, rfl, rfl, rfl, rfl, rfl, rfl,
   by norm_num [delayState, initState],
   by norm_num [delayState, initState],
   by norm_num,
   by norm_num [delayState, initState],
   by norm_num [delayState, initState],
   delay_gate_update testRegistry 0 0 50 [30, 40] delayState walkAnim frameA
     rfl rfl rfl rfl rfl rfl rfl
     (by norm_num [delayState, initState])
     (by norm_num [delayState, initState])
     (by norm_num)
     (by norm_num [delayState, initState])
     (by norm_num [delayState, initState])⟩

/-- Claim C2: during `update(time, delta)` with pending-stop mode 1
(after-ms), the pending value is decremented by the raw delta (not scaled
by `timeScale`), and when the decremented value is `≤ 0` the tick executes
`stop` and returns at once: with no chained animation, the tick ends not
playing with exactly one stop notification, and no frame advance and no
start handling happened (current frame, `hasStarted`, start and update
event counters are all unchanged; only the accumulator accrued). -/
theorem afterMs_stop_precedence (m : Registry) (k : Nat) (t d v : ℚ)
    (s : AnimState) (a : Anim)
    (ha : s.currentAnim = some a) (hap : a.paused = false)
    (hp : s.isPlaying = true) (hps : s.pendingStop = 1)
    (hv : s.pendingStopValue = .num v) (hle : v - d ≤ 0)
    (hchain : s.nextAnim = none) :
    update m (k + 2) t d s
      = stop m (k + 1)
          { s with accumulator := s.accumulator + d * s.timeScale,
                   pendingStopValue := .num (v - d) } ∧
    (update m (k + 2) t d s).isPlaying = false ∧
    (update m (k + 2) t d s).stopEvents = s.stopEvents + 1 ∧
    (update m (k + 2) t d s).currentFrame = s.currentFrame ∧
    (update m (k + 2) t d s).hasStarted = s.hasStarted ∧
    (update m (k + 2) t d s).startEvents = s.startEvents ∧
    (update m (k + 2) t d s).updateEvents = s.updateEvents ∧
    (update m (k + 2) t d s).accumulator = s.accumulator + d * s.timeScale := by
  have hupd : update m (k + 2) t d s
      = stop m (k + 1)
          { s with accumulator := s.accumulator + d * s.timeScale,
                   pendingStopValue := .num (v - d) } := by
    simp [update, ha, hap, hp, hps, hv, decPendingValue, pendingValueLE0, hle]
  have hfields := stop_no_chain_fields m k
    { s with accumulator := s.accumulator + d * s.timeScale,
             pendingStopValue := .num (v - d) }
    (by simp [hchain])
  obtain ⟨h1, _, _, h4, h5, h6, h7, _, _, _, h11, _, h13, _⟩ := hfields
  refine ⟨hupd, ?_, ?_, ?_, ?_, ?_, ?_, ?_⟩ <;> rw [hupd]
  · exact h1
  · rw [h13]; simp [ha]
  · simpa using h4
  · simpa using h5
  · simpa using h6
  · simpa using h7
  · simpa using h11

/-- Witness for `afterMs_stop_precedence`: a playing animation with an
armed 40 ms after-ms stop, ticked with `delta = 50`. -/
theorem afterMs_stop_precedence_witness :
    pendingStopState.currentAnim = some walkAnim ∧
    walkAnim.paused = false ∧
    pendingStopState.isPlaying = true ∧
    pendingStopState.pendingStop = 1 ∧
    pendingStopState.pendingStopValue = .num 40 ∧
    (40 : ℚ) - 50 ≤ 0 ∧
    pendingStopState.nextAnim = none ∧
    (update testRegistry 2 0 50 pendingStopState
        = stop testRegistry 1
            { pendingStopState with
                accumulator := pendingStopState.accumulator + 50 * pendingStopState.timeScale,
                pendingStopValue := .num (40 - 50) } ∧
      (update testRegistry 2 0 50 pendingStopState).isPlaying = false ∧
      (update testRegistry 2 0 50 pendingStopState).stopEvents
        = pendingStopState.stopEvents + 1 ∧
      (update testRegistry 2 0 50 pendingStopState).currentFrame
        = pendingStopState.currentFrame ∧
      (update testRegistry 2 0 50 pendingStopState).hasStarted
        = pendingStopState.hasStarted ∧
      (update testRegistry 2 0 50 pendingStopState).startEvents
        = pendingStopState.startEvents ∧
      (update testRegistry 2 0 50 pendingStopState).updateEvents
        = pendingStopState.updateEvents ∧
      (update testRegistry 2 0 50 pendingStopState).accumulator
        = pendingStopState.accumulator + 50 * pendingStopState.timeScale) :=
  ⟨rfl, rfl, rfl, rfl, rfl, by norm_num, rfl,
   afterMs_stop_precedence testRegistry 0 0 50 40 pendingStopState walkAnim
     rfl rfl rfl rfl rfl (by norm_num) rfl⟩

/-- Claim C4 (code bug evaluation): on a reverse-playing ten-frame
animation, `setProgress (3/10)` does select the frame 30% of the way from
the end (the frame at fraction `7/10`, honouring direction as claimed),
but the follow-up `getProgress` returns `-(7/10)` — the source multiplies
the frame's progress by `-1` when `inReverse`, contradicting its own doc
comment ("a value between 0 and 1") — which is not within one frame's
progress granularity (`1/10`) of the requested `3/10`. -/
theorem setProgress_getProgress_reverse_eval :
    (setProgress (3/10) reverseTenState).currentFrame = some (tenthFrame 6) ∧
    getProgress (setProgress (3/10) reverseTenState) = -(7/10) ∧
    ¬ |getProgress (setProgress (3/10) reverseTenState) - 3/10| ≤ 1/10 := by
  have hframe : (setProgress (3/10) reverseTenState).currentFrame = some (tenthFrame 6) := by
    norm_num [setProgress, reverseTenState, initState, Anim.getFrameByProgress,
      findClosestByProgress, tenAnim, tenthFrame, setCurrentFrame,
      abs_of_nonneg, abs_of_nonpos]
  have hprog : getProgress (setProgress (3/10) reverseTenState) = -(7/10) := by
    have hrev : (setProgress (3/10) reverseTenState).inReverse = true := by
      norm_num [setProgress, reverseTenState, initState, Anim.getFrameByProgress,
        findClosestByProgress, tenAnim, tenthFrame, setCurrentFrame,
        abs_of_nonneg, abs_of_nonpos]
    rw [getProgress, hframe]
    norm_num [hrev, tenthFrame]
  refine ⟨hframe, hprog, ?_⟩
  rw [hprog]
  norm_num [abs_of_nonneg, abs_of_nonpos]

/-- Claim C6 (code bug evaluation): the start-frame guard in `load` is
`startFrame > anim.getTotalFrames()`, a strict comparison, so the
out-of-range index `3` on a three-frame Definition is *not* clamped to
index 0 — `anim.frames[3]` is `undefined` and becomes the current frame —
while the index `4` *is* clamped to frame 0; the reverse-start rule
(start index 0 while not playing forward selects the last frame) does
hold. -/
theorem load_startFrame_boundary_eval :
    (load threeRegistry 2 { key := "three", startFrame := some 3 } initState).currentAnim
        = some threeAnim ∧
    (load threeRegistry 2 { key := "three", startFrame := some 3 } initState).currentFrame
        = none ∧
    threeAnim.frames[0]? = some (gFrame 0) ∧
    (load threeRegistry 2 { key := "three", startFrame := some 4 } initState).currentFrame
        = some (gFrame 0) ∧
    (load threeRegistry 2 { key := "three" } { initState with forward := false }).currentFrame
        = some (gFrame 2) := by
  refine ⟨?_, ?_, ?_, ?_, ?_⟩ <;>
    norm_num [load, managerGet, threeRegistry, List.find?, calculateDuration, jsIndex,
      getLastFrame, threeAnim, gFrame, initState, Anim.getTotalFrames]

/-- Claim C7: when `load` is called with a key that does not resolve in
the registry, it surfaces one non-fatal warning (`console.warn`, counted
in `warnings`; the `faulted` flag is untouched, so no exception), stops
first when something was playing (ending not playing, with the stop
notification when a Definition was loaded), and loads nothing from the
failed request: `currentAnim` and `currentFrame` keep their prior values,
so an unloaded component stays unloaded.  (Stated with no chained
animation queued; a queued chain is promoted by the inner `stop` and is
separate behaviour.) -/
theorem load_missing_key (m : Registry) (k : Nat) (key : PlayConfig) (s : AnimState)
    (hmiss : managerGet m key.key = none) (hchain : s.nextAnim = none) :
    (load m (k + 2) key s).warnings = s.warnings + 1 ∧
    (load m (k + 2) key s).faulted = s.faulted ∧
    (load m (k + 2) key s).currentAnim = s.currentAnim ∧
    (load m (k + 2) key s).currentFrame = s.currentFrame ∧
    (load m (k + 2) key s).isPlaying = false ∧
    (load m (k + 2) key s).stopEvents
      = s.stopEvents + (if s.isPlaying ∧ s.currentAnim.isSome then 1 else 0) := by
  cases hp : s.isPlaying
  · simp [load, hp, hmiss]
  · obtain ⟨h1, _, h3, h4, h5, h6, h7, h8, h9, _, _, _, h13, _⟩ :=
      stop_no_chain_fields m k s hchain
    refine ⟨?_, ?_, ?_, ?_, ?_, ?_⟩ <;>
      simp [load, hp, hmiss, h1, h3, h4, h8, h9, h13]

/-- Witness for `load_missing_key`: requesting the absent key `"ghost"`
from the freshly constructed (unloaded, idle) component. -/
theorem load_missing_key_witness :
    managerGet testRegistry "ghost" = none ∧
    initState.nextAnim = none ∧
    ((load testRegistry 2 { key := "ghost" } initState).warnings
        = initState.warnings + 1 ∧
      (load testRegistry 2 { key := "ghost" } initState).faulted = initState.faulted ∧
      (load testRegistry 2 { key := "ghost" } initState).currentAnim
        = initState.currentAnim ∧
      (load testRegistry 2 { key := "ghost" } initState).currentFrame
        = initState.currentFrame ∧
      (load testRegistry 2 { key := "ghost" } initState).isPlaying = false ∧
      (load testRegistry 2 { key := "ghost" } initState).stopEvents
        = initState.stopEvents
            + (if initState.isPlaying ∧ initState.currentAnim.isSome then 1 else 0)) :=
  ⟨by simp [managerGet, testRegistry, List.find?], rfl,
   load_missing_key testRegistry 0 { key := "ghost" } initState
     (by simp [managerGet, testRegistry, List.find?]) rfl⟩

/-- Claim C8: when the registry's remove notification names the currently
loaded Definition while the component is playing, playback stops (one
stop notification) and the current frame resets to that Definition's
frame 0, without faulting; when not playing, or when the removed
Definition has a different key, the handler changes nothing.  (Stated
with no chained animation queued.) -/
theorem remove_active_definition (m : Registry) (k : Nat) (key : String)
    (a b : Anim) (f0 : AnimFrame) (s : AnimState)
    (ha : s.currentAnim = some a) (hf0 : a.frames[0]? = some f0)
    (hchain : s.nextAnim = none) :
    (s.isPlaying = true → b.key = a.key →
      (remove m (k + 2) key (some b) s).isPlaying = false ∧
      (remove m (k + 2) key (some b) s).stopEvents = s.stopEvents + 1 ∧
      (remove m (k + 2) key (some b) s).currentFrame = some f0 ∧
      (remove m (k + 2) key (some b) s).parent.frame = some f0 ∧
      (remove m (k + 2) key (some b) s).faulted = s.faulted ∧
      (remove m (k + 2) key (some b) s).pendingStop = 0) ∧
    (s.isPlaying = false → remove m (k + 2) key (some b) s = s) ∧
    (s.isPlaying = true → b.key ≠ a.key → remove m (k + 2) key (some b) s = s) := by
  refine ⟨?_, ?_, ?_⟩
  · intro hp hk
    obtain ⟨h1, h2, h3, _, _, _, _, _, h9, _, _, _, h13, _⟩ :=
      stop_no_chain_fields m k s hchain
    have hca : (stop m (k + 1) s).currentAnim = some a := h3.trans ha
    simp [remove, hp, hk, ha, hca, hf0, setCurrentFrame, h1, h9, h13, h2]
  · intro hp
    simp [remove, hp]
  · intro hp hk
    simp [remove, hp, ha, hk]

/-- Witness for `remove_active_definition`: the remove notification for
`walkAnim` while it is playing, and the same notification for a
different-keyed Definition. -/
theorem remove_active_definition_witness :
    playingState.currentAnim = some walkAnim ∧
    walkAnim.frames[0]? = some frameA ∧
    playingState.nextAnim = none ∧
    ((playingState.isPlaying = true → walkAnim.key = walkAnim.key →
        (remove testRegistry 2 "walk" (some walkAnim) playingState).isPlaying = false ∧
        (remove testRegistry 2 "walk" (some walkAnim) playingState).stopEvents
          = playingState.stopEvents + 1 ∧
        (remove testRegistry 2 "walk" (some walkAnim) playingState).currentFrame
          = some frameA ∧
        (remove testRegistry 2 "walk" (some walkAnim) playingState).parent.frame
          = some frameA ∧
        (remove testRegistry 2 "walk" (some walkAnim) playingState).faulted
          = playingState.faulted ∧
        (remove testRegistry 2 "walk" (some walkAnim) playingState).pendingStop = 0) ∧
      (playingState.isPlaying = false →
        remove testRegistry 2 "walk" (some walkAnim) playingState = playingState) ∧
      (playingState.isPlaying = true → walkAnim.key ≠ walkAnim.key →
        remove testRegistry 2 "walk" (some walkAnim) playingState = playingState)) :=
  ⟨rfl, rfl, rfl,
   remove_active_definition testRegistry 0 "walk" walkAnim walkAnim frameA playingState
     rfl rfl rfl⟩

/-- Helper: none of the operations reachable from a stop/complete/restart
chain (`stop`, `play`, `startAnimation`, `load`, `handleStart`,
`updateFrame`, `complete`) ever arms a pending stop: each preserves
pending-stop mode 0, at every fuel. -/
theorem pendingStop_zero_preserved (m : Registry) :
    ∀ fuel : Nat,
      (∀ s : AnimState, s.pendingStop = 0 → (stop m fuel s).pendingStop = 0) ∧
      (∀ (key : PlayConfig) (ig : Bool) (s : AnimState), s.pendingStop = 0 →
        (play m fuel key ig s).pendingStop = 0) ∧
      (∀ (key : PlayConfig) (s : AnimState), s.pendingStop = 0 →
        (startAnimation m fuel key s).pendingStop = 0) ∧
      (∀ (key : PlayConfig) (s : AnimState), s.pendingStop = 0 →
        (load m fuel key s).pendingStop = 0) ∧
      (∀ s : AnimState, s.pendingStop = 0 → (handleStart m fuel s).pendingStop = 0) ∧
      (∀ (fr : Option AnimFrame) (s : AnimState), s.pendingStop = 0 →
        (updateFrame m fuel fr s).pendingStop = 0) ∧
      (∀ s : AnimState, s.pendingStop = 0 → (complete m fuel s).pendingStop = 0) := by
  intro fuel
  induction fuel with
  | zero =>
    exact ⟨fun s h => by simpa [stop] using h,
      fun key ig s h => by simpa [play] using h,
      fun key s h => by simpa [startAnimation] using h,
      fun key s h => by simpa [load] using h,
      fun s h => by simpa [handleStart] using h,
      fun fr s h => by simpa [updateFrame] using h,
      fun s h => by simpa [complete] using h⟩
  | succ n ih =>
    obtain ⟨ihstop, ihplay, ihstart, ihload, ihhs, ihuf, ihcomp⟩ := ih
    refine ⟨?_, ?_, ?_, ?_, ?_, ?_, ?_⟩
    · intro s h
      cases hca : s.currentAnim <;> cases hna : s.nextAnim <;>
        simp [stop, handleStop, hca, hna, ihplay]
    · intro key ig s h
      cases hca : s.currentAnim <;>
        simp only [play, hca] <;>
        split <;>
        first
          | exact h
          | exact ihstart key _ h
          | (split <;> first | exact h | exact ihstart key _ h)
    · intro key s h
      have hl := ihload key s h
      cases hca : (load m n key s).currentAnim
      · simpa [startAnimation, hca] using hl
      · simp [startAnimation, getFirstTick, hca, ihhs, apply_ite AnimState.pendingStop]
    · intro key s h
      cases hp : s.isPlaying <;> cases hm : managerGet m key.key <;>
        simp [load, calculateDuration, hp, hm, h, ihstop s h]
    · intro s h
      cases hso : s.showOnStart <;>
        simp only [handleStart, hso, Bool.false_eq_true, if_false, if_true] <;>
        exact ihuf _ _ h
    · intro fr s h
      cases fr with
      | none => exact h
      | some f =>
        cases hp : s.isPlaying <;> cases hsa : f.setAlpha <;>
          simp [updateFrame, setCurrentFrame, hp, hsa, h]
    · intro s h
      cases hca : s.currentAnim <;> cases hna : s.nextAnim <;>
        cases hhc : s.hideOnComplete <;>
        simp [complete, handleComplete, hca, hna, hhc, ihplay]

/-- Claim C9 (amended): `stop` and `complete` always reset the
pending-stop mode to 0; `restart` resets it whenever an animation is
loaded, and `startAnimation` whenever its load leaves an animation loaded
— but both return early, leaving an armed pending stop in place, when
nothing is loaded (see the counterexample). -/
theorem pendingStop_reset (m : Registry) (k : Nat) (s : AnimState) (key : PlayConfig)
    (includeDelay resetRepeats : Bool) :
    (stop m (k + 1) s).pendingStop = 0 ∧
    (complete m (k + 1) s).pendingStop = 0 ∧
    (s.currentAnim.isSome →
      (restart m (k + 1) includeDelay resetRepeats s).pendingStop = 0) ∧
    ((load m k key s).currentAnim.isSome →
      (startAnimation m (k + 1) key s).pendingStop = 0) := by
  obtain ⟨ihstop, ihplay, ihstart, ihload, ihhs, ihuf, ihcomp⟩ := pendingStop_zero_preserved m k
  refine ⟨?_, ?_, ?_, ?_⟩
  · cases hca : s.currentAnim <;> cases hna : s.nextAnim <;>
      simp [stop, handleStop, hca, hna, ihplay]
  · cases hca : s.currentAnim <;> cases hna : s.nextAnim <;>
      cases hhc : s.hideOnComplete <;>
      simp [complete, handleComplete, hca, hna, hhc, ihplay]
  · intro hsome
    obtain ⟨a, hca⟩ := Option.isSome_iff_exists.mp hsome
    cases hrr : resetRepeats <;> simp [restart, getFirstTick, hca, hrr, ihuf]
  · intro hsome
    obtain ⟨a, hca⟩ := Option.isSome_iff_exists.mp hsome
    simp [startAnimation, getFirstTick, hca, ihhs, apply_ite AnimState.pendingStop]

/-- Claim C9 counterexample: `stopAfterDelay` arms pending-stop mode 1
even when nothing is loaded, and `restart` on the unloaded component
returns through its early-exit without touching it — after `restart`
returns, the pending-stop mode is still 1, not 0. -/
theorem restart_pendingStop_cex :
    (restart testRegistry 5 false false (stopAfterDelay 100 initState)).pendingStop = 1 ∧
    (restart testRegistry 5 false false (stopAfterDelay 100 initState)).pendingStop ≠ 0 := by
  constructor <;> simp [restart, stopAfterDelay, initState]

/-- Witness for `pendingStop_reset`, at the loaded playing state with an
armed after-ms pending stop: `stop`, `complete`, `restart` and a
resolving `startAnimation` all leave pending-stop mode 0. -/
theorem pendingStop_reset_witness :
    (stop testRegistry 2 pendingStopState).pendingStop = 0 ∧
    (complete testRegistry 2 pendingStopState).pendingStop = 0 ∧
    (restart testRegistry 2 false false pendingStopState).pendingStop = 0 ∧
    (startAnimation testRegistry 2 { key := "walk" } pendingStopState).pendingStop = 0 :=
  ⟨(pendingStop_reset testRegistry 1 pendingStopState { key := "walk" } false false).1,
   (pendingStop_reset testRegistry 1 pendingStopState { key := "walk" } false false).2.1,
   (pendingStop_reset testRegistry 1 pendingStopState { key := "walk" } false false).2.2.1
     (by simp [pendingStopState, initState]),
   (pendingStop_reset testRegistry 1 pendingStopState { key := "walk" } false false).2.2.2
     (by norm_num [load, stop, handleStop, managerGet, testRegistry, List.find?,
       calculateDuration, getLastFrame, jsIndex, Anim.getTotalFrames,
       pendingStopState, initState, walkAnim])⟩

/-- Witness for `stopAfterRepeat_clamps`: `stopAfterRepeat 2` on a playing
animation with `repeatCounter = 5` arms the pending stop with value `2`
(not `5`). -/
theorem stopAfterRepeat_clamps_witness :
    repeatFiveState.repeatCounter ≠ -1 ∧
    (((stopAfterRepeat 2 repeatFiveState).pendingStop = 2 ∧
       (stopAfterRepeat 2 repeatFiveState).pendingStopValue =
         .num (min 2 repeatFiveState.repeatCounter)) ∧
      (repeatFiveState.isPlaying = true →
        (playAfterRepeat testRegistry 1 { key := "next" } 2 repeatFiveState).pendingStop = 2 ∧
        (playAfterRepeat testRegistry 1 { key := "next" } 2 repeatFiveState).pendingStopValue =
          .num (min 2 repeatFiveState.repeatCounter))) ∧
    (stopAfterRepeat 2 repeatFiveState).pendingStopValue = .num 2 :=
  ⟨by norm_num [repeatFiveState, initState],
   stopAfterRepeat_clamps testRegistry 0 { key := "next" } repeatFiveState 2
     (by norm_num [repeatFiveState, initState]),
   by norm_num [stopAfterRepeat, repeatFiveState, initState]⟩

end PhaserAnim
